import Mathlib

set_option linter.unusedSectionVars false

/-!
Shallow embedding of the entity-compartment cache of the scrinium
repository: the `Repository` class, `createRepository` and the
per-category compartment options of `Repository.ts`, together with the
collaborators that file imports (`DataCompartment`, `Lookup`,
`DataStoreToken.compartment`), which are modelled from the specification
because their sources are not part of this tree.

Execution model. The JavaScript event loop runs all cache operations on a
single logical thread; a promise is therefore embedded as its settled
outcome (`Except String`). A synchronous throw is the `.error` branch of a
synchronous operation's result; an `async` method never throws
synchronously — every throw in its body becomes a rejection of the
returned promise (`AsyncResult.rejected`), and `JsCall` records that a
call to an `async` method always returns (a promise) rather than throws.
Object mutation is embedded as explicit state passing: `RepoState` holds
each category's key-to-compartment entry list (the mutable state of the
`ILookup` object registered under that category) and a `World` that
instruments object identity of compartments and the ordered log of
resolver invocations.
-/

section Assoc

variable {α β : Type} [DecidableEq α]

/-- Reading a key of a JS object / `Map`, embedded on an entry list. -/
def assocFind : List (α × β) → α → Option β
  | [], _ => none
  | (k, v) :: rest, key => if key = k then some v else assocFind rest key

/-- Writing `obj[key] = val`: replace the binding if present, else append. -/
def assocSet : List (α × β) → α → β → List (α × β)
  | [], key, val => [(key, val)]
  | (k, v) :: rest, key, val =>
      if key = k then (key, val) :: rest else (k, v) :: assocSet rest key val

/-- Deleting a key from a JS object / `Map`. -/
def assocRemove : List (α × β) → α → List (α × β)
  | [], _ => []
  | (k, v) :: rest, key =>
      if key = k then assocRemove rest key else (k, v) :: assocRemove rest key

/-- `Object.entries(src).forEach(([k, v]) => dst[k] = v)` into a fresh hash. -/
def hashCopy (l : List (α × β)) : List (α × β) :=
  l.foldl (fun acc e => assocSet acc e.1 e.2) []

end Assoc

/-- Modelled from the spec: `DataStoreToken` (its source is not in this tree)
is an identifying token; `compartment` derives the per-category compartment
token from the repository token and the category key. -/
abbrev DataStoreToken := List String

/-- Modelled from the spec: derivation of a compartment token from a parent
token and a category key. -/
def DataStoreToken.compartment (t : DataStoreToken) (key : String) : DataStoreToken :=
  t ++ [key]

/-- Loading strategy of a compartment; `Repository.ts` only ever configures
`strategy: 'auto'` (load immediately on creation). -/
inductive LoadStrategy
  | auto
  | manual
  deriving DecidableEq

/-- Modelled from the spec: `RetentionOptions` (from `Compartments.ts`, not in
this tree) is an opaque retention policy that the repository merely passes
through to each compartment it creates. -/
structure RetentionOptions where
  windowMs : Nat
  deriving DecidableEq

/-- `IEntityResolver<Key, Entity>`: an idempotent async function used to load
the entity for a key; the promise is embedded as its settled outcome. -/
abbrev IEntityResolver (Key Entity : Type) := Key → Except String Entity

/-- `RepositoryCompartmentOptions<Key, Entity>`: the data source used to fill
a compartment, plus optional retention configuration. -/
structure RepositoryCompartmentOptions (Key Entity : Type) where
  resolver : IEntityResolver Key Entity
  retention : Option RetentionOptions

/-- Modelled from the spec: `DataCompartment` (its source is not in this tree)
is the Cell of the spec — the current value, absent until the first load
completes; the replay-latest stream, represented by its ordered list of
emissions; the load strategy and retention it was configured with; the
rejection reason of a failed load, surfaced on the stream's error channel;
and `cellId`, standing for JS object identity of the compartment. -/
structure DataCompartment (Entity : Type) where
  cellId : Nat
  token : DataStoreToken
  strategy : LoadStrategy
  retention : Option RetentionOptions
  value : Option Entity
  emissions : List Entity
  loadError : Option String
  deriving DecidableEq

/-- Modelled from the spec: constructing a compartment with `loadPolicy =
auto` invokes the source immediately; `loaded` is the settled outcome of that
first source invocation. On success the value is stored and emitted; on
failure the value stays absent and the rejection reason is recorded. -/
def DataCompartment.create {Entity : Type} (cellId : Nat) (token : DataStoreToken)
    (strategy : LoadStrategy) (retention : Option RetentionOptions)
    (loaded : Except String Entity) : DataCompartment Entity :=
  match loaded with
  | .ok v =>
      { cellId := cellId, token := token, strategy := strategy, retention := retention,
        value := some v, emissions := [v], loadError := none }
  | .error e =>
      { cellId := cellId, token := token, strategy := strategy, retention := retention,
        value := none, emissions := [], loadError := some e }

/-- Modelled from the spec: `firstValueFrom(compartment.value$)` — the Cell's
read: the current value if present, otherwise the awaited first load, which in
the settled model has either already succeeded (value present) or rejected.
The final branch is unreachable for the auto-loaded compartments this
repository creates. -/
def DataCompartment.firstValue {Entity : Type} (c : DataCompartment Entity) :
    Except String Entity :=
  match c.value with
  | some v => .ok v
  | none =>
      match c.loadError with
      | some e => .error e
      | none => .error "pending"

/-- Modelled from the spec: `push` / `next` synchronously replaces the current
value and emits it to all subscribers; it does not re-invoke the source. -/
def DataCompartment.next {Entity : Type} (c : DataCompartment Entity) (v : Entity) :
    DataCompartment Entity :=
  { c with value := some v, emissions := c.emissions ++ [v] }

/-- Instrumentation threaded through compartment creation: the counter that
provides each new compartment's identity, and the ordered log of resolver
invocations as (category key, entity id) pairs. -/
structure World (Key : Type) where
  nextCellId : Nat
  resolveLog : List (String × Key)
  deriving DecidableEq

/-- A `Lookup` factory: builds the compartment for a key, performing the
auto-load side effects recorded in `World`. -/
abbrev Factory (Key Entity : Type) := Key → World Key → DataCompartment Entity × World Key

/-- Modelled from the spec: `Lookup.find` (the KeyedCache; its source is not
in this tree) returns the existing compartment for `id`, or creates one via
the factory and stores the mapping. `find` itself is synchronous, so the JS
event loop serializes all `find` calls: the check-then-create step can never
interleave with another `find` for the same key. -/
def Lookup.find {Key Entity : Type} [DecidableEq Key] (factory : Factory Key Entity)
    (entries : List (Key × DataCompartment Entity)) (w : World Key) (id : Key) :
    DataCompartment Entity × List (Key × DataCompartment Entity) × World Key :=
  match assocFind entries id with
  | some c => (c, entries, w)
  | none =>
      match factory id w with
      | (c, w2) => (c, entries ++ [(id, c)], w2)

/-- Modelled from the spec: `Lookup.clear` removes the mapping for one key. -/
def Lookup.clear {Key Entity : Type} [DecidableEq Key]
    (entries : List (Key × DataCompartment Entity)) (id : Key) :
    List (Key × DataCompartment Entity) :=
  assocRemove entries id

/-- Modelled from the spec: `Lookup.clearAll` removes every mapping. -/
def Lookup.clearAll {Key Entity : Type}
    (_ : List (Key × DataCompartment Entity)) : List (Key × DataCompartment Entity) :=
  []

/-- The `Repository<Registry>` class: the identifying token, the managed
compartment tokens, the constructor argument `lookups`, and the private
`compartmentLookups` hash the constructor copies every entry into. The
category-to-lookup mapping lives in this structure, which no operation
rebuilds: the set of categories is fixed at construction. -/
structure Repository (Key Entity : Type) where
  token : DataStoreToken
  managedTokens : List DataStoreToken
  lookups : List (String × Factory Key Entity)
  compartmentLookups : List (String × Factory Key Entity)

/-- The `Repository` constructor: stores the token, the managed tokens and
`lookups`, and copies every entry of `lookups` into `compartmentLookups`. -/
def Repository.make {Key Entity : Type} (token : DataStoreToken)
    (managedTokens : List DataStoreToken)
    (lookups : List (String × Factory Key Entity)) : Repository Key Entity :=
  { token := token, managedTokens := managedTokens, lookups := lookups,
    compartmentLookups := hashCopy lookups }

/-- The mutable state reachable from a repository: for each category key, the
entry list of the `ILookup` object registered under it, plus the
instrumentation world. -/
structure RepoState (Key Entity : Type) where
  cells : List (String × List (Key × DataCompartment Entity))
  world : World Key
  deriving DecidableEq

section Ops

variable {Key Entity : Type} [DecidableEq Key] [DecidableEq Entity]

/-- The entry list of the lookup registered under `key` (empty when the
category has not been touched yet). -/
def cellsOf (s : RepoState Key Entity) (key : String) :
    List (Key × DataCompartment Entity) :=
  (assocFind s.cells key).getD []

/-- The state of a freshly constructed repository: no compartments exist and
no resolver has been invoked. -/
def RepoState.initial : RepoState Key Entity :=
  { cells := [], world := { nextCellId := 0, resolveLog := [] } }

/-- Overwrite the compartment stored at `(key, id)` — the functional image of
mutating the compartment object held in the lookup's map. -/
def setCell (s : RepoState Key Entity) (key : String) (id : Key)
    (c : DataCompartment Entity) : RepoState Key Entity :=
  { s with cells := assocSet s.cells key (assocSet (cellsOf s key) id c) }

/-- The errors surfaced by repository operations. `unknownCategory` is the
`throw new Error(...)` of `findLookup`; the other two tag a load rejection
and a modifier rejection propagating out of `modify`. -/
inductive RepoError
  | unknownCategory (key : String)
  | loadFailure (msg : String)
  | modifierFailure (msg : String)
  deriving DecidableEq

/-- The settled outcome of a promise returned by an `async` method. -/
inductive AsyncResult (ε α : Type)
  | resolved (a : α)
  | rejected (e : ε)
  deriving DecidableEq

/-- The immediate outcome of calling a JS function: either it throws
synchronously or it returns a value (for an `async` function, a promise). -/
inductive JsCall (ε α : Type)
  | thrown (e : ε)
  | returned (a : α)
  deriving DecidableEq

/-- `true` when the call returned no value because of a synchronous throw. -/
def JsCall.isThrown {ε α : Type} : JsCall ε α → Bool
  | .thrown _ => true
  | .returned _ => false

/-- `Repository.findLookup`: read `compartmentLookups[key]`; throw
`Could not find compartment "key".` when no lookup is registered. The
`.error` branch is a synchronous throw. -/
def Repository.findLookup (repo : Repository Key Entity) (key : String) :
    Except RepoError (Factory Key Entity) :=
  match assocFind repo.compartmentLookups key with
  | some lookup => .ok lookup
  | none => .error (RepoError.unknownCategory key)

/-- `true` when a lookup is registered under `key`; this depends only on the
immutable repository, never on the mutable state. -/
def Repository.isRegistered (repo : Repository Key Entity) (key : String) : Bool :=
  match assocFind repo.compartmentLookups key with
  | some _ => true
  | none => false

/-- `Repository.get`: resolve the category's lookup with `findLookup` (which
throws synchronously on an unknown category, before any state is touched),
then return `lookup.find(id)`. -/
def Repository.get (repo : Repository Key Entity) (s : RepoState Key Entity)
    (key : String) (id : Key) :
    Except RepoError (DataCompartment Entity) × RepoState Key Entity :=
  match repo.findLookup key with
  | .error e => (.error e, s)
  | .ok lookup =>
      match Lookup.find lookup (cellsOf s key) s.world id with
      | (c, entries, w) => (.ok c, { cells := assocSet s.cells key entries, world := w })

/-- `Repository.clear`: resolve the lookup, then `lookup.clear(id)`. -/
def Repository.clear (repo : Repository Key Entity) (s : RepoState Key Entity)
    (key : String) (id : Key) : Except RepoError Unit × RepoState Key Entity :=
  match repo.findLookup key with
  | .error e => (.error e, s)
  | .ok _ =>
      (.ok (), { s with cells := assocSet s.cells key (Lookup.clear (cellsOf s key) id) })

/-- `Repository.clearAll`: resolve the lookup, then `lookup.clearAll()`. -/
def Repository.clearAll (repo : Repository Key Entity) (s : RepoState Key Entity)
    (key : String) : Except RepoError Unit × RepoState Key Entity :=
  match repo.findLookup key with
  | .error e => (.error e, s)
  | .ok _ =>
      (.ok (), { s with cells := assocSet s.cells key (Lookup.clearAll (cellsOf s key)) })

/-- `Repository.modify` (an `async` method): resolve the compartment via
`this.get`, await `firstValueFrom(compartment.value$)`, apply the modifier,
then push the result with `compartment.next`. Every throw in the body —
including the synchronous `UnknownCategory` throw inside `get` — surfaces as
a rejection of the returned promise; when the modifier rejects, `next` is
never reached. -/
def Repository.modify (repo : Repository Key Entity) (s : RepoState Key Entity)
    (key : String) (id : Key) (modifier : Entity → Except String Entity) :
    AsyncResult RepoError Unit × RepoState Key Entity :=
  match Repository.get repo s key id with
  | (.error e, s1) => (.rejected e, s1)
  | (.ok c, s1) =>
      match c.firstValue with
      | .error e => (.rejected (RepoError.loadFailure e), s1)
      | .ok currentValue =>
          match modifier currentValue with
          | .error e => (.rejected (RepoError.modifierFailure e), s1)
          | .ok newValue =>
              (.resolved (), setCell s1 key id (DataCompartment.next c newValue))

/-- Calling the `async` method `modify` from the outside: per JS semantics the
call itself always returns a promise and never throws synchronously. -/
def Repository.modifyCall (repo : Repository Key Entity) (s : RepoState Key Entity)
    (key : String) (id : Key) (modifier : Entity → Except String Entity) :
    JsCall RepoError (AsyncResult RepoError Unit) × RepoState Key Entity :=
  (JsCall.returned (Repository.modify repo s key id modifier).1,
    (Repository.modify repo s key id modifier).2)

/-- `Repository.reset`: iterate the entries of the constructor argument
`lookups` and call `clearAll()` on each registered lookup. -/
def Repository.reset (repo : Repository Key Entity) (s : RepoState Key Entity) :
    RepoState Key Entity :=
  repo.lookups.foldl
    (fun acc e => { acc with cells := assocSet acc.cells e.1 (Lookup.clearAll (cellsOf acc e.1)) })
    s

/-- `n` sequential calls to `Repository.get` for the same `(key, id)` — the
shape concurrent `find` callers take on the JS event loop, where the
synchronous `find` bodies never interleave. -/
def Repository.getN (repo : Repository Key Entity) :
    RepoState Key Entity → String → Key → Nat →
      List (Except RepoError (DataCompartment Entity)) × RepoState Key Entity
  | s, _, _, 0 => ([], s)
  | s, key, id, n + 1 =>
      ((Repository.get repo s key id).1 ::
          (Repository.getN repo (Repository.get repo s key id).2 key id n).1,
        (Repository.getN repo (Repository.get repo s key id).2 key id n).2)

/-- Embedding of the factory closure `createRepository` installs for category
`key`: build a compartment whose options are `loadingOptions.strategy =
'auto'`, the category's configured retention, an absent default value and a
`ConfiguredDataSource` bound to `entityOptions.resolver.resolve(id)`.
Creating the compartment performs the auto load — exactly one resolver
invocation, appended to the log — and allocates a fresh identity. -/
def categoryFactory (token : DataStoreToken) (key : String)
    (entityOptions : RepositoryCompartmentOptions Key Entity) : Factory Key Entity :=
  fun id w =>
    (DataCompartment.create w.nextCellId (DataStoreToken.compartment token key)
        LoadStrategy.auto entityOptions.retention (entityOptions.resolver id),
      { nextCellId := w.nextCellId + 1, resolveLog := w.resolveLog ++ [(key, id)] })

/-- `createRepository`: map the registry entries to one compartment token per
key, build the `lookups` hash with one factory-backed `Lookup` per entry, and
hand everything to the `Repository` constructor. -/
def createRepository (token : DataStoreToken)
    (registry : List (String × RepositoryCompartmentOptions Key Entity)) :
    Repository Key Entity :=
  Repository.make token
    (registry.map fun e => DataStoreToken.compartment token e.1)
    (hashCopy (registry.map fun e => (e.1, categoryFactory token e.1 e.2)))

end Ops

section AssocLemmas

variable {α β : Type} [DecidableEq α]

theorem assocFind_assocSet_self (l : List (α × β)) (k : α) (v : β) :
    assocFind (assocSet l k v) k = some v := by
  induction l with
  | nil => simp [assocSet, assocFind]
  | cons hd tl ih =>
      obtain ⟨k0, v0⟩ := hd
      by_cases h : k = k0
      · simp [assocSet, assocFind, h]
      · simp [assocSet, assocFind, h, ih]

theorem assocFind_assocSet_ne (l : List (α × β)) (k k2 : α) (v : β) (h : k2 ≠ k) :
    assocFind (assocSet l k v) k2 = assocFind l k2 := by
  induction l with
  | nil => simp [assocSet, assocFind, h]
  | cons hd tl ih =>
      obtain ⟨k0, v0⟩ := hd
      by_cases h0 : k = k0
      · subst h0
        simp [assocSet, assocFind, h]
      · by_cases h1 : k2 = k0
        · simp [assocSet, assocFind, h0, h1]
        · simp [assocSet, assocFind, h0, h1, ih]

theorem assocSet_self (l : List (α × β)) (k : α) (v : β) (h : assocFind l k = some v) :
    assocSet l k v = l := by
  induction l with
  | nil => simp [assocFind] at h
  | cons hd tl ih =>
      obtain ⟨k0, v0⟩ := hd
      by_cases h0 : k = k0
      · subst h0
        simp [assocFind] at h
        simp [assocSet, h]
      · simp [assocFind, h0] at h
        simp [assocSet, h0, ih h]

theorem assocFind_append_of_none (l l2 : List (α × β)) (k : α)
    (h : assocFind l k = none) : assocFind (l ++ l2) k = assocFind l2 k := by
  induction l with
  | nil => simp
  | cons hd tl ih =>
      obtain ⟨k0, v0⟩ := hd
      by_cases h0 : k = k0
      · simp [assocFind, h0] at h
      · simp [assocFind, h0] at h ⊢
        exact ih h

theorem assocFind_append_self (l : List (α × β)) (k : α) (v : β)
    (h : assocFind l k = none) : assocFind (l ++ [(k, v)]) k = some v := by
  rw [assocFind_append_of_none l _ k h]
  simp [assocFind]

theorem assocSet_of_none (l : List (α × β)) (k : α) (v : β)
    (h : assocFind l k = none) : assocSet l k v = l ++ [(k, v)] := by
  induction l with
  | nil => simp [assocSet]
  | cons hd tl ih =>
      obtain ⟨k0, v0⟩ := hd
      by_cases h0 : k = k0
      · simp [assocFind, h0] at h
      · simp [assocFind, h0] at h
        simp [assocSet, h0, ih h]

theorem foldl_assocSet_append (l : List (α × β)) :
    ∀ acc : List (α × β), (∀ k ∈ l.map Prod.fst, assocFind acc k = none) →
      (l.map Prod.fst).Nodup →
      l.foldl (fun a e => assocSet a e.1 e.2) acc = acc ++ l := by
  induction l with
  | nil => intro acc _ _; simp
  | cons hd tl ih =>
      intro acc hnone hnd
      obtain ⟨k0, v0⟩ := hd
      have hacc : assocFind acc k0 = none := hnone k0 (by simp)
      rw [List.map_cons] at hnd
      have hnd2 := List.nodup_cons.mp hnd
      simp only [List.foldl_cons]
      rw [assocSet_of_none acc k0 v0 hacc, ih (acc ++ [(k0, v0)])]
      · simp
      · intro k hk
        have hne : k ≠ k0 := by
          intro he
          subst he
          exact hnd2.1 hk
        rw [assocFind_append_of_none _ _ _ (hnone k (by simp [hk]))]
        simp [assocFind, hne]
      · exact hnd2.2

theorem hashCopy_eq_self (l : List (α × β)) (hnd : (l.map Prod.fst).Nodup) :
    hashCopy l = l := by
  have h := foldl_assocSet_append l [] (fun k _ => rfl) hnd
  simpa [hashCopy] using h

end AssocLemmas

section OpLemmas

variable {Key Entity : Type} [DecidableEq Key] [DecidableEq Entity]

theorem Repository.findLookup_of_registered (repo : Repository Key Entity) (key : String)
    (h : repo.isRegistered key = true) :
    ∃ f, repo.findLookup key = Except.ok f := by
  unfold Repository.isRegistered at h
  unfold Repository.findLookup
  cases hf : assocFind repo.compartmentLookups key with
  | none => rw [hf] at h; simp at h
  | some f => exact ⟨f, rfl⟩

theorem Repository.findLookup_of_unregistered (repo : Repository Key Entity) (key : String)
    (h : repo.isRegistered key = false) :
    repo.findLookup key = Except.error (RepoError.unknownCategory key) := by
  unfold Repository.isRegistered at h
  unfold Repository.findLookup
  cases hf : assocFind repo.compartmentLookups key with
  | none => rfl
  | some f => rw [hf] at h; simp at h

theorem Repository.get_of_unregistered (repo : Repository Key Entity)
    (s : RepoState Key Entity) (key : String) (id : Key)
    (h : repo.isRegistered key = false) :
    Repository.get repo s key id = (.error (RepoError.unknownCategory key), s) := by
  unfold Repository.get
  rw [Repository.findLookup_of_unregistered repo key h]

theorem Repository.clear_of_unregistered (repo : Repository Key Entity)
    (s : RepoState Key Entity) (key : String) (id : Key)
    (h : repo.isRegistered key = false) :
    Repository.clear repo s key id = (.error (RepoError.unknownCategory key), s) := by
  unfold Repository.clear
  rw [Repository.findLookup_of_unregistered repo key h]

theorem Repository.clearAll_of_unregistered (repo : Repository Key Entity)
    (s : RepoState Key Entity) (key : String)
    (h : repo.isRegistered key = false) :
    Repository.clearAll repo s key = (.error (RepoError.unknownCategory key), s) := by
  unfold Repository.clearAll
  rw [Repository.findLookup_of_unregistered repo key h]

theorem Repository.modify_of_unregistered (repo : Repository Key Entity)
    (s : RepoState Key Entity) (key : String) (id : Key)
    (modifier : Entity → Except String Entity)
    (h : repo.isRegistered key = false) :
    Repository.modify repo s key id modifier =
      (.rejected (RepoError.unknownCategory key), s) := by
  unfold Repository.modify
  rw [Repository.get_of_unregistered repo s key id h]

theorem cellsOf_some (s : RepoState Key Entity) (key : String) (id : Key)
    (c : DataCompartment Entity) (hc : assocFind (cellsOf s key) id = some c) :
    assocFind s.cells key = some (cellsOf s key) := by
  cases h2 : assocFind s.cells key with
  | none =>
      exfalso
      rw [cellsOf, h2] at hc
      simp [assocFind] at hc
  | some entries => simp [cellsOf, h2]

theorem Repository.get_present (repo : Repository Key Entity)
    (s : RepoState Key Entity) (key : String) (id : Key) (c : DataCompartment Entity)
    (hreg : repo.isRegistered key = true)
    (hc : assocFind (cellsOf s key) id = some c) :
    Repository.get repo s key id = (.ok c, s) := by
  obtain ⟨f, hf⟩ := Repository.findLookup_of_registered repo key hreg
  unfold Repository.get
  rw [hf]
  unfold Lookup.find
  rw [hc]
  simp only []
  rw [assocSet_self _ _ _ (cellsOf_some s key id c hc)]

theorem Repository.getN_present (repo : Repository Key Entity)
    (s : RepoState Key Entity) (key : String) (id : Key) (c : DataCompartment Entity)
    (hreg : repo.isRegistered key = true)
    (hc : assocFind (cellsOf s key) id = some c) :
    ∀ n, Repository.getN repo s key id n = (List.replicate n (Except.ok c), s) := by
  intro n
  induction n with
  | zero => rfl
  | succ n ih =>
      unfold Repository.getN
      rw [Repository.get_present repo s key id c hreg hc]
      simp [ih, List.replicate_succ]

theorem Repository.get_fresh (repo : Repository Key Entity)
    (s : RepoState Key Entity) (key : String) (id : Key) (f : Factory Key Entity)
    (hf : repo.findLookup key = Except.ok f)
    (hfresh : assocFind (cellsOf s key) id = none) :
    Repository.get repo s key id =
      (.ok (f id s.world).1,
        { cells := assocSet s.cells key (cellsOf s key ++ [(id, (f id s.world).1)]),
          world := (f id s.world).2 }) := by
  unfold Repository.get
  rw [hf]
  unfold Lookup.find
  rw [hfresh]

end OpLemmas

section RepoLemmas

variable {Key Entity : Type} [DecidableEq Key] [DecidableEq Entity]

theorem assocFind_factories (token : DataStoreToken)
    (l : List (String × RepositoryCompartmentOptions Key Entity)) (k : String)
    (v : RepositoryCompartmentOptions Key Entity) (h : assocFind l k = some v) :
    assocFind (l.map fun e => (e.1, categoryFactory token e.1 e.2)) k =
      some (categoryFactory token k v) := by
  induction l with
  | nil => simp [assocFind] at h
  | cons hd tl ih =>
      obtain ⟨k0, v0⟩ := hd
      by_cases h0 : k = k0
      · subst h0
        simp [assocFind] at h
        simp [assocFind, h]
      · simp [assocFind, h0] at h ⊢
        exact ih h

theorem factories_keys (token : DataStoreToken)
    (l : List (String × RepositoryCompartmentOptions Key Entity)) :
    ((l.map fun e => (e.1, categoryFactory token e.1 e.2)).map Prod.fst) =
      l.map Prod.fst := by
  induction l with
  | nil => rfl
  | cons hd tl ih => simp [ih]

theorem createRepository_lookups (token : DataStoreToken)
    (registry : List (String × RepositoryCompartmentOptions Key Entity))
    (hnd : (registry.map Prod.fst).Nodup) :
    (createRepository token registry).lookups =
      registry.map fun e => (e.1, categoryFactory token e.1 e.2) := by
  have hkeys : (((registry.map fun e =>
      (e.1, categoryFactory token e.1 e.2)).map Prod.fst)).Nodup := by
    rw [factories_keys]; exact hnd
  unfold createRepository Repository.make
  simp only []
  rw [hashCopy_eq_self _ hkeys]

theorem createRepository_compartmentLookups (token : DataStoreToken)
    (registry : List (String × RepositoryCompartmentOptions Key Entity))
    (hnd : (registry.map Prod.fst).Nodup) :
    (createRepository token registry).compartmentLookups =
      registry.map fun e => (e.1, categoryFactory token e.1 e.2) := by
  have hkeys : (((registry.map fun e =>
      (e.1, categoryFactory token e.1 e.2)).map Prod.fst)).Nodup := by
    rw [factories_keys]; exact hnd
  unfold createRepository Repository.make
  simp only []
  rw [hashCopy_eq_self _ hkeys, hashCopy_eq_self _ hkeys]

theorem createRepository_managedTokens (token : DataStoreToken)
    (registry : List (String × RepositoryCompartmentOptions Key Entity)) :
    (createRepository token registry).managedTokens =
      registry.map fun e => DataStoreToken.compartment token e.1 := rfl

theorem createRepository_findLookup (token : DataStoreToken)
    (registry : List (String × RepositoryCompartmentOptions Key Entity))
    (key : String) (opts : RepositoryCompartmentOptions Key Entity)
    (hnd : (registry.map Prod.fst).Nodup)
    (h : assocFind registry key = some opts) :
    (createRepository token registry).findLookup key =
      Except.ok (categoryFactory token key opts) := by
  unfold Repository.findLookup
  rw [createRepository_compartmentLookups token registry hnd,
    assocFind_factories token registry key opts h]

theorem createRepository_isRegistered (token : DataStoreToken)
    (registry : List (String × RepositoryCompartmentOptions Key Entity))
    (key : String) (opts : RepositoryCompartmentOptions Key Entity)
    (hnd : (registry.map Prod.fst).Nodup)
    (h : assocFind registry key = some opts) :
    (createRepository token registry).isRegistered key = true := by
  unfold Repository.isRegistered
  rw [createRepository_compartmentLookups token registry hnd,
    assocFind_factories token registry key opts h]

theorem Repository.reset_world (repo : Repository Key Entity) (s : RepoState Key Entity) :
    (Repository.reset repo s).world = s.world := by
  unfold Repository.reset
  generalize repo.lookups = l
  induction l generalizing s with
  | nil => rfl
  | cons hd tl ih =>
      simp only [List.foldl_cons]
      rw [ih]

theorem cellsOf_reset (repo : Repository Key Entity) (s : RepoState Key Entity)
    (k : String) :
    cellsOf (Repository.reset repo s) k =
      if k ∈ repo.lookups.map Prod.fst then [] else cellsOf s k := by
  unfold Repository.reset
  generalize repo.lookups = l
  induction l generalizing s with
  | nil => simp
  | cons hd tl ih =>
      obtain ⟨k0, f0⟩ := hd
      simp only [List.foldl_cons]
      rw [ih]
      by_cases hk : k ∈ tl.map Prod.fst
      · simp [hk]
      · by_cases h0 : k = k0
        · subst h0
          simp [hk, cellsOf, Lookup.clearAll, assocFind_assocSet_self]
        · simp [hk, h0, cellsOf, Lookup.clearAll, assocFind_assocSet_ne _ _ _ _ h0]

theorem Repository.modify_present_ok (repo : Repository Key Entity)
    (s : RepoState Key Entity) (key : String) (id : Key) (c : DataCompartment Entity)
    (v v2 : Entity) (modifier : Entity → Except String Entity)
    (hreg : repo.isRegistered key = true)
    (hc : assocFind (cellsOf s key) id = some c)
    (hv : c.value = some v)
    (hm : modifier v = Except.ok v2) :
    Repository.modify repo s key id modifier =
      (AsyncResult.resolved (), setCell s key id (DataCompartment.next c v2)) := by
  have hg := Repository.get_present repo s key id c hreg hc
  simp [Repository.modify, hg, DataCompartment.firstValue, hv, hm]

theorem Repository.modify_present_err (repo : Repository Key Entity)
    (s : RepoState Key Entity) (key : String) (id : Key) (c : DataCompartment Entity)
    (v : Entity) (msg : String) (modifier : Entity → Except String Entity)
    (hreg : repo.isRegistered key = true)
    (hc : assocFind (cellsOf s key) id = some c)
    (hv : c.value = some v)
    (hm : modifier v = Except.error msg) :
    Repository.modify repo s key id modifier =
      (AsyncResult.rejected (RepoError.modifierFailure msg), s) := by
  have hg := Repository.get_present repo s key id c hreg hc
  simp [Repository.modify, hg, DataCompartment.firstValue, hv, hm]

end RepoLemmas

/-- C1: for every registered category and id whose compartment currently holds
value `v`, `modify(category, id, m)` reads `v`, applies the async modifier and
pushes the result back onto the same compartment: after `modify` resolves the
compartment holds `await m(v)`, that value was emitted to subscribers as the
next emission, and no new resolver invocation occurred (the world, including
the resolver log, is untouched). -/
theorem modify_reads_applies_pushes {Key Entity : Type} [DecidableEq Key]
    [DecidableEq Entity] (repo : Repository Key Entity) (s : RepoState Key Entity)
    (key : String) (id : Key) (c : DataCompartment Entity) (v v2 : Entity)
    (m : Entity → Except String Entity)
    (hreg : repo.isRegistered key = true)
    (hc : assocFind (cellsOf s key) id = some c)
    (hv : c.value = some v)
    (hm : m v = Except.ok v2) :
    (Repository.modify repo s key id m).1 = AsyncResult.resolved () ∧
    assocFind (cellsOf (Repository.modify repo s key id m).2 key) id =
      some (DataCompartment.next c v2) ∧
    (DataCompartment.next c v2).value = some v2 ∧
    (DataCompartment.next c v2).emissions = c.emissions ++ [v2] ∧
    (Repository.modify repo s key id m).2.world = s.world := by
  have h := Repository.modify_present_ok repo s key id c v v2 m hreg hc hv hm
  rw [h]
  refine ⟨rfl, ?_, rfl, rfl, rfl⟩
  simp [setCell, cellsOf, assocFind_assocSet_self]

/-- C2: for every registered category and id whose compartment holds a value,
if the async modifier rejects then no `push` occurs: `modify` rejects with the
modifier's failure and returns the state unchanged, so the compartment still
holds the value it held before the call. -/
theorem modify_rejection_no_push {Key Entity : Type} [DecidableEq Key]
    [DecidableEq Entity] (repo : Repository Key Entity) (s : RepoState Key Entity)
    (key : String) (id : Key) (c : DataCompartment Entity) (v : Entity) (msg : String)
    (m : Entity → Except String Entity)
    (hreg : repo.isRegistered key = true)
    (hc : assocFind (cellsOf s key) id = some c)
    (hv : c.value = some v)
    (hm : m v = Except.error msg) :
    Repository.modify repo s key id m =
      (AsyncResult.rejected (RepoError.modifierFailure msg), s) ∧
    assocFind (cellsOf (Repository.modify repo s key id m).2 key) id = some c ∧
    c.value = some v := by
  have h := Repository.modify_present_err repo s key id c v msg m hreg hc hv hm
  exact ⟨h, by rw [h]; exact hc, hv⟩

/-- C8: `get` on an unregistered category raises `UnknownCategory` and creates
no state: the returned state is exactly the input state, so the repository's
(immutable) category mapping and every category's key-to-compartment mapping
are unchanged by the failed call. -/
theorem get_unregistered_no_state {Key Entity : Type} [DecidableEq Key]
    [DecidableEq Entity] (repo : Repository Key Entity) (s : RepoState Key Entity)
    (key : String) (id : Key)
    (h : repo.isRegistered key = false) :
    Repository.get repo s key id = (Except.error (RepoError.unknownCategory key), s) ∧
    ∀ k, cellsOf (Repository.get repo s key id).2 k = cellsOf s k := by
  have hg := Repository.get_of_unregistered repo s key id h
  exact ⟨hg, fun k => by rw [hg]⟩

/-- C10: `clear(A, id)` and `clearAll(A)` operate only on category A's lookup:
for any other category B, B's key-to-compartment mapping is unchanged by the
call. -/
theorem clear_frame_other_categories {Key Entity : Type} [DecidableEq Key]
    [DecidableEq Entity] (repo : Repository Key Entity) (s : RepoState Key Entity)
    (catA catB : String) (id : Key)
    (h : catB ≠ catA) :
    cellsOf (Repository.clear repo s catA id).2 catB = cellsOf s catB ∧
    cellsOf (Repository.clearAll repo s catA).2 catB = cellsOf s catB := by
  constructor
  · cases hf : repo.findLookup catA with
    | error e => simp [Repository.clear, hf]
    | ok f => simp [Repository.clear, hf, cellsOf, assocFind_assocSet_ne _ _ _ _ h]
  · cases hf : repo.findLookup catA with
    | error e => simp [Repository.clearAll, hf]
    | ok f => simp [Repository.clearAll, hf, cellsOf, assocFind_assocSet_ne _ _ _ _ h]

section RegisteredLemmas

variable {Key Entity : Type} [DecidableEq Key] [DecidableEq Entity]

theorem Repository.get_of_registered (repo : Repository Key Entity)
    (s : RepoState Key Entity) (key : String) (id : Key) (f : Factory Key Entity)
    (hf : repo.findLookup key = Except.ok f) :
    Repository.get repo s key id =
      (Except.ok (Lookup.find f (cellsOf s key) s.world id).1,
        { cells := assocSet s.cells key (Lookup.find f (cellsOf s key) s.world id).2.1,
          world := (Lookup.find f (cellsOf s key) s.world id).2.2 }) := by
  unfold Repository.get
  rw [hf]

theorem Repository.get_registered_isOk (repo : Repository Key Entity)
    (s : RepoState Key Entity) (key : String) (id : Key)
    (hreg : repo.isRegistered key = true) :
    ∀ e, (Repository.get repo s key id).1 ≠ Except.error e := by
  obtain ⟨f, hf⟩ := Repository.findLookup_of_registered repo key hreg
  rw [Repository.get_of_registered repo s key id f hf]
  intro e
  simp

theorem Repository.clear_registered_isOk (repo : Repository Key Entity)
    (s : RepoState Key Entity) (key : String) (id : Key)
    (hreg : repo.isRegistered key = true) :
    ∀ e, (Repository.clear repo s key id).1 ≠ Except.error e := by
  obtain ⟨f, hf⟩ := Repository.findLookup_of_registered repo key hreg
  unfold Repository.clear
  rw [hf]
  intro e
  simp

theorem Repository.clearAll_registered_isOk (repo : Repository Key Entity)
    (s : RepoState Key Entity) (key : String)
    (hreg : repo.isRegistered key = true) :
    ∀ e, (Repository.clearAll repo s key).1 ≠ Except.error e := by
  obtain ⟨f, hf⟩ := Repository.findLookup_of_registered repo key hreg
  unfold Repository.clearAll
  rw [hf]
  intro e
  simp

theorem Repository.modify_registered_not_unknown (repo : Repository Key Entity)
    (s : RepoState Key Entity) (key : String) (id : Key)
    (m : Entity → Except String Entity)
    (hreg : repo.isRegistered key = true) :
    ∀ k2, (Repository.modify repo s key id m).1 ≠
      AsyncResult.rejected (RepoError.unknownCategory k2) := by
  obtain ⟨f, hf⟩ := Repository.findLookup_of_registered repo key hreg
  unfold Repository.modify
  rw [Repository.get_of_registered repo s key id f hf]
  intro k2
  rcases hfv : (Lookup.find f (cellsOf s key) s.world id).1.firstValue with e | v
  · simp [hfv]
  · rcases hm : m v with e2 | v2
    · simp [hfv, hm]
    · simp [hfv, hm]

end RegisteredLemmas

/-- C7: the set of categories of a repository is fixed at construction. The
category-to-lookup mapping lives in the immutable `Repository` value; every
operation takes and returns only the mutable `RepoState`, and whether each of
`get`, `clear`, `clearAll` and `modify` raises `UnknownCategory` is equivalent
to `isRegistered` being false — a property of the repository alone,
independent of the state. Hence a category that raises `UnknownCategory` once
raises it on every later call, and a registered category stays registered. -/
theorem categories_fixed_after_construction {Key Entity : Type} [DecidableEq Key]
    [DecidableEq Entity] (repo : Repository Key Entity) (s : RepoState Key Entity)
    (key : String) (id : Key) (m : Entity → Except String Entity) :
    ((Repository.get repo s key id).1 = Except.error (RepoError.unknownCategory key)
        ↔ repo.isRegistered key = false) ∧
    ((Repository.clear repo s key id).1 = Except.error (RepoError.unknownCategory key)
        ↔ repo.isRegistered key = false) ∧
    ((Repository.clearAll repo s key).1 = Except.error (RepoError.unknownCategory key)
        ↔ repo.isRegistered key = false) ∧
    ((Repository.modify repo s key id m).1 =
        AsyncResult.rejected (RepoError.unknownCategory key)
        ↔ repo.isRegistered key = false) := by
  cases hreg : repo.isRegistered key with
  | false =>
      refine ⟨?_, ?_, ?_, ?_⟩
      · rw [Repository.get_of_unregistered repo s key id hreg]; simp
      · rw [Repository.clear_of_unregistered repo s key id hreg]; simp
      · rw [Repository.clearAll_of_unregistered repo s key hreg]; simp
      · rw [Repository.modify_of_unregistered repo s key id m hreg]; simp
  | true =>
      refine ⟨?_, ?_, ?_, ?_⟩
      · simp only [Repository.get_registered_isOk repo s key id hreg]
        simp
      · simp only [Repository.clear_registered_isOk repo s key id hreg]
        simp
      · simp only [Repository.clearAll_registered_isOk repo s key hreg]
        simp
      · simp only [Repository.modify_registered_not_unknown repo s key id m hreg]
        simp

/-- C3 (amended): for every category token never registered, the synchronous
methods `get`, `clear` and `clearAll` raise `UnknownCategory` synchronously
at call time; `modify`, being an `async` method, never throws synchronously —
its call returns a promise, and that promise rejects with `UnknownCategory`. -/
theorem unknown_category_sync_except_modify {Key Entity : Type} [DecidableEq Key]
    [DecidableEq Entity] (repo : Repository Key Entity) (s : RepoState Key Entity)
    (key : String) (id : Key) (m : Entity → Except String Entity)
    (h : repo.isRegistered key = false) :
    Repository.get repo s key id = (Except.error (RepoError.unknownCategory key), s) ∧
    Repository.clear repo s key id = (Except.error (RepoError.unknownCategory key), s) ∧
    Repository.clearAll repo s key = (Except.error (RepoError.unknownCategory key), s) ∧
    (Repository.modifyCall repo s key id m).1.isThrown = false ∧
    Repository.modifyCall repo s key id m =
      (JsCall.returned (AsyncResult.rejected (RepoError.unknownCategory key)), s) := by
  refine ⟨Repository.get_of_unregistered repo s key id h,
    Repository.clear_of_unregistered repo s key id h,
    Repository.clearAll_of_unregistered repo s key h, rfl, ?_⟩
  unfold Repository.modifyCall
  rw [Repository.modify_of_unregistered repo s key id m h]

section MoreLemmas

variable {Key Entity : Type} [DecidableEq Key] [DecidableEq Entity]

theorem assocFind_mem_keys {α β : Type} [DecidableEq α] (l : List (α × β)) (k : α)
    (v : β) (h : assocFind l k = some v) : k ∈ l.map Prod.fst := by
  induction l with
  | nil => simp [assocFind] at h
  | cons hd tl ih =>
      obtain ⟨k0, v0⟩ := hd
      by_cases h0 : k = k0
      · subst h0; simp
      · simp [assocFind, h0] at h
        simp [ih h]

theorem DataCompartment.create_strategy (cellId : Nat) (tok : DataStoreToken)
    (strategy : LoadStrategy) (retention : Option RetentionOptions)
    (loaded : Except String Entity) :
    (DataCompartment.create cellId tok strategy retention loaded).strategy = strategy := by
  cases loaded <;> rfl

theorem DataCompartment.create_retention (cellId : Nat) (tok : DataStoreToken)
    (strategy : LoadStrategy) (retention : Option RetentionOptions)
    (loaded : Except String Entity) :
    (DataCompartment.create cellId tok strategy retention loaded).retention = retention := by
  cases loaded <;> rfl

theorem DataCompartment.create_token (cellId : Nat) (tok : DataStoreToken)
    (strategy : LoadStrategy) (retention : Option RetentionOptions)
    (loaded : Except String Entity) :
    (DataCompartment.create cellId tok strategy retention loaded).token = tok := by
  cases loaded <;> rfl

theorem Repository.modify_fresh_ok (repo : Repository Key Entity)
    (s : RepoState Key Entity) (key : String) (id : Key) (f : Factory Key Entity)
    (v0 v1 : Entity) (m : Entity → Except String Entity)
    (hf : repo.findLookup key = Except.ok f)
    (hfresh : assocFind (cellsOf s key) id = none)
    (hv : (f id s.world).1.value = some v0)
    (hm : m v0 = Except.ok v1) :
    Repository.modify repo s key id m =
      (AsyncResult.resolved (),
        setCell
          { cells := assocSet s.cells key (cellsOf s key ++ [(id, (f id s.world).1)]),
            world := (f id s.world).2 } key id
          (DataCompartment.next (f id s.world).1 v1)) := by
  have hg := Repository.get_fresh repo s key id f hf hfresh
  simp [Repository.modify, hg, DataCompartment.firstValue, hv, hm]

end MoreLemmas

/-- C4: single-flight — for a key never accessed, `n ≥ 1` calls to
`get(key, id)` (the serialized shape that `n` concurrent `find` callers take
on the single-threaded JS event loop, since `Lookup.find` is synchronous)
create exactly one compartment (exactly one identity is allocated), invoke
the category's resolver exactly once (exactly one entry is appended to the
resolver log), and every caller observes the very same created compartment. -/
theorem find_single_flight {Key Entity : Type} [DecidableEq Key] [DecidableEq Entity]
    (token : DataStoreToken)
    (registry : List (String × RepositoryCompartmentOptions Key Entity))
    (s : RepoState Key Entity) (key : String) (id : Key)
    (opts : RepositoryCompartmentOptions Key Entity) (n : Nat)
    (hnd : (registry.map Prod.fst).Nodup)
    (hreg : assocFind registry key = some opts)
    (hfresh : assocFind (cellsOf s key) id = none)
    (hn : 1 ≤ n) :
    (Repository.getN (createRepository token registry) s key id n).1 =
      List.replicate n (Except.ok ((categoryFactory token key opts id s.world).1)) ∧
    cellsOf (Repository.getN (createRepository token registry) s key id n).2 key =
      cellsOf s key ++ [(id, (categoryFactory token key opts id s.world).1)] ∧
    (Repository.getN (createRepository token registry) s key id n).2.world.resolveLog =
      s.world.resolveLog ++ [(key, id)] ∧
    (Repository.getN (createRepository token registry) s key id n).2.world.nextCellId =
      s.world.nextCellId + 1 := by
  cases n with
  | zero => exact absurd hn (by norm_num)
  | succ m =>
      have hf := createRepository_findLookup token registry key opts hnd hreg
      have hreg2 := createRepository_isRegistered token registry key opts hnd hreg
      have hget := Repository.get_fresh (createRepository token registry) s key id
        (categoryFactory token key opts) hf hfresh
      have hc1 : assocFind (cellsOf
          { cells := assocSet s.cells key
              (cellsOf s key ++ [(id, (categoryFactory token key opts id s.world).1)]),
            world := (categoryFactory token key opts id s.world).2 } key) id =
          some ((categoryFactory token key opts id s.world).1) := by
        simp only [cellsOf, assocFind_assocSet_self, Option.getD_some]
        exact assocFind_append_self _ _ _ hfresh
      have hgetN := Repository.getN_present (createRepository token registry)
        { cells := assocSet s.cells key
            (cellsOf s key ++ [(id, (categoryFactory token key opts id s.world).1)]),
          world := (categoryFactory token key opts id s.world).2 } key id
        ((categoryFactory token key opts id s.world).1) hreg2 hc1 m
      unfold Repository.getN
      simp only [hget, hgetN]
      refine ⟨by simp [List.replicate_succ], ?_, ?_, ?_⟩
      · simp [cellsOf, assocFind_assocSet_self]
      · simp [categoryFactory]
      · simp [categoryFactory]

/-- C5: `reset()` calls `clearAll()` on every registered category's lookup —
after `reset` every registered category's key-to-compartment mapping is empty
— so a subsequent `get` for any (category, id) of a registered category takes
the creation path: it returns a freshly created compartment and triggers a
fresh resolver call, appended to the resolver log. -/
theorem reset_clears_every_category {Key Entity : Type} [DecidableEq Key]
    [DecidableEq Entity] (token : DataStoreToken)
    (registry : List (String × RepositoryCompartmentOptions Key Entity))
    (s : RepoState Key Entity) (key : String) (id : Key)
    (opts : RepositoryCompartmentOptions Key Entity)
    (hnd : (registry.map Prod.fst).Nodup)
    (hreg : assocFind registry key = some opts) :
    (∀ k ∈ registry.map Prod.fst,
      cellsOf (Repository.reset (createRepository token registry) s) k = []) ∧
    (Repository.get (createRepository token registry)
        (Repository.reset (createRepository token registry) s) key id).1 =
      Except.ok ((categoryFactory token key opts id s.world).1) ∧
    (Repository.get (createRepository token registry)
        (Repository.reset (createRepository token registry) s) key id).2.world.resolveLog
      = s.world.resolveLog ++ [(key, id)] := by
  have hlkeys : (createRepository token registry).lookups.map Prod.fst =
      registry.map Prod.fst := by
    rw [createRepository_lookups token registry hnd, factories_keys]
  have hclear : ∀ k ∈ registry.map Prod.fst,
      cellsOf (Repository.reset (createRepository token registry) s) k = [] := by
    intro k hk
    rw [cellsOf_reset, hlkeys]
    simp [hk]
  have hkey : key ∈ registry.map Prod.fst := assocFind_mem_keys registry key opts hreg
  have hfresh2 : assocFind
      (cellsOf (Repository.reset (createRepository token registry) s) key) id = none := by
    rw [hclear key hkey]
    rfl
  have hw : (Repository.reset (createRepository token registry) s).world = s.world :=
    Repository.reset_world _ _
  have hf := createRepository_findLookup token registry key opts hnd hreg
  have hget := Repository.get_fresh (createRepository token registry)
    (Repository.reset (createRepository token registry) s) key id
    (categoryFactory token key opts) hf hfresh2
  rw [hw] at hget
  refine ⟨hclear, ?_, ?_⟩
  · rw [hget]
  · rw [hget]
    simp [categoryFactory]

/-- C6: `createRepository(token, registry)` builds, for every registry entry,
a per-category lookup whose factory creates a compartment with
`loadPolicy = auto`, the category's configured retention, the compartment
token derived from the repository token, and a source bound to the category's
resolver applied to the requested id; and the repository's managed tokens are
exactly one compartment token per registry key, derived from the repository
token. -/
theorem createRepository_builds_registry {Key Entity : Type} [DecidableEq Key]
    [DecidableEq Entity] (token : DataStoreToken)
    (registry : List (String × RepositoryCompartmentOptions Key Entity))
    (key : String) (opts : RepositoryCompartmentOptions Key Entity)
    (hnd : (registry.map Prod.fst).Nodup)
    (hreg : assocFind registry key = some opts) :
    (createRepository token registry).managedTokens =
      registry.map (fun e => DataStoreToken.compartment token e.1) ∧
    (createRepository token registry).findLookup key =
      Except.ok (categoryFactory token key opts) ∧
    (∀ (id : Key) (w : World Key), categoryFactory token key opts id w =
      (DataCompartment.create w.nextCellId (DataStoreToken.compartment token key)
          LoadStrategy.auto opts.retention (opts.resolver id),
        { nextCellId := w.nextCellId + 1, resolveLog := w.resolveLog ++ [(key, id)] })) ∧
    (∀ (id : Key) (w : World Key),
      (categoryFactory token key opts id w).1.strategy = LoadStrategy.auto ∧
      (categoryFactory token key opts id w).1.retention = opts.retention ∧
      (categoryFactory token key opts id w).1.token =
        DataStoreToken.compartment token key) := by
  refine ⟨rfl, createRepository_findLookup token registry key opts hnd hreg,
    fun id w => rfl, fun id w => ?_⟩
  refine ⟨?_, ?_, ?_⟩
  · exact DataCompartment.create_strategy _ _ _ _ _
  · exact DataCompartment.create_retention _ _ _ _ _
  · exact DataCompartment.create_token _ _ _ _ _

/-- C9: calling `modify` on a registered category with an id whose compartment
does not yet exist does not fail on absence: `get` creates the compartment
(whose auto load invokes the resolver once, appending one entry to the
resolver log), `modify` awaits the first loaded value `v0`, applies the
modifier and pushes the result, so the compartment ends up holding
`await m(v0)` with emissions `[v0, m(v0)]`. -/
theorem modify_absent_creates_then_pushes {Key Entity : Type} [DecidableEq Key]
    [DecidableEq Entity] (token : DataStoreToken)
    (registry : List (String × RepositoryCompartmentOptions Key Entity))
    (s : RepoState Key Entity) (key : String) (id : Key)
    (opts : RepositoryCompartmentOptions Key Entity) (v0 v1 : Entity)
    (m : Entity → Except String Entity)
    (hnd : (registry.map Prod.fst).Nodup)
    (hreg : assocFind registry key = some opts)
    (hfresh : assocFind (cellsOf s key) id = none)
    (hres : opts.resolver id = Except.ok v0)
    (hm : m v0 = Except.ok v1) :
    (Repository.modify (createRepository token registry) s key id m).1 =
      AsyncResult.resolved () ∧
    (Repository.modify (createRepository token registry) s key id m).2.world.resolveLog
      = s.world.resolveLog ++ [(key, id)] ∧
    assocFind (cellsOf
        (Repository.modify (createRepository token registry) s key id m).2 key) id =
      some (DataCompartment.next ((categoryFactory token key opts id s.world).1) v1) ∧
    (DataCompartment.next ((categoryFactory token key opts id s.world).1) v1).value =
      some v1 ∧
    (DataCompartment.next ((categoryFactory token key opts id s.world).1) v1).emissions =
      [v0, v1] := by
  have hf := createRepository_findLookup token registry key opts hnd hreg
  have hv : ((categoryFactory token key opts) id s.world).1.value = some v0 := by
    simp [categoryFactory, hres, DataCompartment.create]
  have hmod := Repository.modify_fresh_ok (createRepository token registry) s key id
    (categoryFactory token key opts) v0 v1 m hf hfresh hv hm
  rw [hmod]
  refine ⟨rfl, ?_, ?_, rfl, ?_⟩
  · simp [setCell, categoryFactory]
  · simp [setCell, cellsOf, assocFind_assocSet_self]
  · simp [DataCompartment.next, categoryFactory, hres, DataCompartment.create]

/-- A concrete category configuration: the resolver loads `id + 100`. -/
def optsEx : RepositoryCompartmentOptions Nat Nat :=
  { resolver := fun id => Except.ok (id + 100), retention := none }

/-- A second concrete category, configured with a retention policy. -/
def optsEx2 : RepositoryCompartmentOptions Nat Nat :=
  { resolver := fun id => Except.ok (id + 200), retention := some { windowMs := 5 } }

/-- A concrete repository token. -/
def tokenEx : DataStoreToken := ["app"]

/-- A concrete registry with two categories. -/
def registryEx : List (String × RepositoryCompartmentOptions Nat Nat) :=
  [("videos", optsEx), ("authors", optsEx2)]

/-- The repository built from the concrete registry. -/
def repoEx : Repository Nat Nat := createRepository tokenEx registryEx

/-- A compartment of the "videos" category already holding the value 101. -/
def cellEx : DataCompartment Nat :=
  DataCompartment.create 0 (DataStoreToken.compartment tokenEx "videos")
    LoadStrategy.auto none (Except.ok 101)

/-- A state in which `cellEx` is stored under ("videos", 1). -/
def stateEx : RepoState Nat Nat :=
  { cells := [("videos", [(1, cellEx)])],
    world := { nextCellId := 1, resolveLog := [("videos", 1)] } }

/-- The fresh state of the concrete repository. -/
def initEx : RepoState Nat Nat := RepoState.initial

/-- A modifier whose promise resolves with the incremented value. -/
def mOkEx : Nat → Except String Nat := fun v => Except.ok (v + 1)

/-- A modifier whose promise rejects. -/
def mErrEx : Nat → Except String Nat := fun _ => Except.error "boom"

/-- C3 counterexample: calling `modify` with the unregistered category
"movies" does not raise a synchronous (call-time) error — `modify` is an
`async` method, so the call returns a promise (`isThrown` is false) and that
promise rejects with `UnknownCategory`, contrary to the claim that all four
operations raise synchronously. -/
theorem modify_unknown_not_sync_counterexample :
    (Repository.modifyCall repoEx stateEx "movies" 1 mOkEx).1.isThrown = false ∧
    (Repository.modifyCall repoEx stateEx "movies" 1 mOkEx).1 =
      JsCall.returned (AsyncResult.rejected (RepoError.unknownCategory "movies")) :=
  ⟨rfl, rfl⟩

/-- Witness for C1 at the concrete repository and state. -/
theorem modify_reads_applies_pushes_witness :
    (Repository.modify repoEx stateEx "videos" 1 mOkEx).1 = AsyncResult.resolved () ∧
    assocFind (cellsOf (Repository.modify repoEx stateEx "videos" 1 mOkEx).2 "videos") 1 =
      some (DataCompartment.next cellEx 102) ∧
    (DataCompartment.next cellEx 102).value = some 102 ∧
    (DataCompartment.next cellEx 102).emissions = cellEx.emissions ++ [102] ∧
    (Repository.modify repoEx stateEx "videos" 1 mOkEx).2.world = stateEx.world :=
  modify_reads_applies_pushes repoEx stateEx "videos" 1 cellEx 101 102 mOkEx
    (by rfl) (by rfl) (by rfl) (by rfl)

/-- Witness for C2 at the concrete repository and state. -/
theorem modify_rejection_no_push_witness :
    Repository.modify repoEx stateEx "videos" 1 mErrEx =
      (AsyncResult.rejected (RepoError.modifierFailure "boom"), stateEx) ∧
    assocFind (cellsOf (Repository.modify repoEx stateEx "videos" 1 mErrEx).2 "videos") 1 =
      some cellEx ∧
    cellEx.value = some 101 :=
  modify_rejection_no_push repoEx stateEx "videos" 1 cellEx 101 "boom" mErrEx
    (by rfl) (by rfl) (by rfl) (by rfl)

/-- Witness for the amended C3 at the concrete repository and state. -/
theorem unknown_category_sync_except_modify_witness :
    Repository.get repoEx stateEx "movies" 1 =
      (Except.error (RepoError.unknownCategory "movies"), stateEx) ∧
    Repository.clear repoEx stateEx "movies" 1 =
      (Except.error (RepoError.unknownCategory "movies"), stateEx) ∧
    Repository.clearAll repoEx stateEx "movies" =
      (Except.error (RepoError.unknownCategory "movies"), stateEx) ∧
    (Repository.modifyCall repoEx stateEx "movies" 1 mOkEx).1.isThrown = false ∧
    Repository.modifyCall repoEx stateEx "movies" 1 mOkEx =
      (JsCall.returned (AsyncResult.rejected (RepoError.unknownCategory "movies")), stateEx) :=
  unknown_category_sync_except_modify repoEx stateEx "movies" 1 mOkEx (by rfl)

/-- Witness for C4: three sequential `get` calls for the never-accessed key 7. -/
theorem find_single_flight_witness :
    (Repository.getN (createRepository tokenEx registryEx) initEx "videos" 7 3).1 =
      List.replicate 3
        (Except.ok ((categoryFactory tokenEx "videos" optsEx 7 initEx.world).1)) ∧
    cellsOf (Repository.getN (createRepository tokenEx registryEx) initEx "videos" 7 3).2
        "videos" =
      cellsOf initEx "videos" ++
        [(7, (categoryFactory tokenEx "videos" optsEx 7 initEx.world).1)] ∧
    (Repository.getN (createRepository tokenEx registryEx) initEx "videos" 7 3).2.world.resolveLog =
      initEx.world.resolveLog ++ [("videos", 7)] ∧
    (Repository.getN (createRepository tokenEx registryEx) initEx "videos" 7 3).2.world.nextCellId =
      initEx.world.nextCellId + 1 :=
  find_single_flight tokenEx registryEx initEx "videos" 7 optsEx 3
    (by decide) (by rfl) (by rfl) (by decide)

/-- Witness for C5 at the concrete repository, starting from a state with a
previously loaded compartment. -/
theorem reset_clears_every_category_witness :
    (∀ k ∈ registryEx.map Prod.fst,
      cellsOf (Repository.reset (createRepository tokenEx registryEx) stateEx) k = []) ∧
    (Repository.get (createRepository tokenEx registryEx)
        (Repository.reset (createRepository tokenEx registryEx) stateEx) "videos" 1).1 =
      Except.ok ((categoryFactory tokenEx "videos" optsEx 1 stateEx.world).1) ∧
    (Repository.get (createRepository tokenEx registryEx)
        (Repository.reset (createRepository tokenEx registryEx) stateEx) "videos" 1).2.world.resolveLog
      = stateEx.world.resolveLog ++ [("videos", 1)] :=
  reset_clears_every_category tokenEx registryEx stateEx "videos" 1 optsEx
    (by decide) (by rfl)

/-- Witness for C6 at the concrete registry, for the "authors" entry. -/
theorem createRepository_builds_registry_witness :
    (createRepository tokenEx registryEx).managedTokens =
      registryEx.map (fun e => DataStoreToken.compartment tokenEx e.1) ∧
    (createRepository tokenEx registryEx).findLookup "authors" =
      Except.ok (categoryFactory tokenEx "authors" optsEx2) ∧
    (∀ (id : Nat) (w : World Nat), categoryFactory tokenEx "authors" optsEx2 id w =
      (DataCompartment.create w.nextCellId (DataStoreToken.compartment tokenEx "authors")
          LoadStrategy.auto optsEx2.retention (optsEx2.resolver id),
        { nextCellId := w.nextCellId + 1, resolveLog := w.resolveLog ++ [("authors", id)] })) ∧
    (∀ (id : Nat) (w : World Nat),
      (categoryFactory tokenEx "authors" optsEx2 id w).1.strategy = LoadStrategy.auto ∧
      (categoryFactory tokenEx "authors" optsEx2 id w).1.retention = optsEx2.retention ∧
      (categoryFactory tokenEx "authors" optsEx2 id w).1.token =
        DataStoreToken.compartment tokenEx "authors") :=
  createRepository_builds_registry tokenEx registryEx "authors" optsEx2
    (by decide) (by rfl)

/-- Witness for C8 at the concrete repository and state. -/
theorem get_unregistered_no_state_witness :
    Repository.get repoEx stateEx "movies" 9 =
      (Except.error (RepoError.unknownCategory "movies"), stateEx) ∧
    ∀ k, cellsOf (Repository.get repoEx stateEx "movies" 9).2 k = cellsOf stateEx k :=
  get_unregistered_no_state repoEx stateEx "movies" 9 (by rfl)

/-- Witness for C9: `modify` on the never-accessed key 5 of "videos". -/
theorem modify_absent_creates_then_pushes_witness :
    (Repository.modify (createRepository tokenEx registryEx) initEx "videos" 5 mOkEx).1 =
      AsyncResult.resolved () ∧
    (Repository.modify (createRepository tokenEx registryEx) initEx "videos" 5 mOkEx).2.world.resolveLog
      = initEx.world.resolveLog ++ [("videos", 5)] ∧
    assocFind (cellsOf
        (Repository.modify (createRepository tokenEx registryEx) initEx "videos" 5 mOkEx).2
        "videos") 5 =
      some (DataCompartment.next ((categoryFactory tokenEx "videos" optsEx 5 initEx.world).1) 106) ∧
    (DataCompartment.next ((categoryFactory tokenEx "videos" optsEx 5 initEx.world).1) 106).value =
      some 106 ∧
    (DataCompartment.next ((categoryFactory tokenEx "videos" optsEx 5 initEx.world).1) 106).emissions =
      [105, 106] :=
  modify_absent_creates_then_pushes tokenEx registryEx initEx "videos" 5 optsEx 105 106 mOkEx
    (by decide) (by rfl) (by rfl) (by rfl) (by rfl)

/-- Witness for C10: clearing "authors" leaves "videos" untouched. -/
theorem clear_frame_other_categories_witness :
    cellsOf (Repository.clear repoEx stateEx "authors" 1).2 "videos" =
      cellsOf stateEx "videos" ∧
    cellsOf (Repository.clearAll repoEx stateEx "authors").2 "videos" =
      cellsOf stateEx "videos" :=
  clear_frame_other_categories repoEx stateEx "authors" "videos" 1 (by decide)
